import Mathlib

/-!
# opusCodec: the Opus adapter for gumble (`src/opusCodec/opus.go`)

A shallow embedding of the adapter.  The adapter sits between two external
collaborators whose code is not part of the repository:

* the Opus engine (`gopkg.in/hraban/opus.v2`), taken as a parameter `Engine`;
* the host library (`layeh.com/gumble/gumble`), whose two constants
  `AudioSampleRate` and `AudioChannels` are taken as a parameter `Host`.

Go features that the adapter relies on are made explicit:

* Go `int` is a 64-bit two's-complement integer: products are wrapped by `wrapInt`;
* `make` with a negative length or with a size beyond the runtime's allocation limit
  (`GoRuntime.maxAlloc`), a slice expression out of range, and a method call through a
  nil engine handle are run-time panics (`Outcome.panicked`);
* engine objects live behind pointers: a handle is `Option S`, `none` being nil, and a
  method call returns the state the object is left in;
* a callee can overwrite the elements of a slice it is handed, never its length
  (`overwrite`);
* the calls made to the engine's `Encode` and `Decode` are recorded (`Exec.calls`) by
  the one step that performs them (`Engine.callEncode`, `Engine.callDecode`).
-/

namespace opusCodec

/-! ## Go values -/

/-- One signed 16-bit PCM sample (Go `int16`); the adapter never computes on samples. -/
abbrev Sample := Int

/-- One byte of encoded data (Go `byte`); the adapter never computes on bytes. -/
abbrev Byte := Nat

/-- Two's-complement wrap-around of a mathematical integer into Go's 64-bit `int`. -/
def wrapInt (x : Int) : Int := (x + 2 ^ 63) % 2 ^ 64 - 2 ^ 63

/-- The run-time panics the adapter can raise. -/
inductive Panic where
  | makeLenOutOfRange
  | sliceBoundsOutOfRange
  | nilDereference
  deriving DecidableEq, Repr

/-- A Go call either returns a value or panics. -/
inductive Outcome (α : Type) where
  | returned (a : α)
  | panicked (p : Panic)
  deriving DecidableEq, Repr

/-- Sequencing of two calls: a panic in the first one skips the second. -/
def Outcome.bind {α β : Type} (o : Outcome α) (f : α → Outcome β) : Outcome β :=
  match o with
  | .returned a => f a
  | .panicked p => .panicked p

/-- The Go runtime the program runs on: `maxAlloc` is the largest number of bytes it
grants to one allocation (`2 ^ 48` on linux/amd64, less where memory is shorter). -/
structure GoRuntime where
  maxAlloc : Nat
  deriving DecidableEq, Repr

/-- The check of the runtime's `makeslice`: a slice of `n` elements of `elemSize` bytes
can be made when `n` is not negative and `n * elemSize` bytes are within the allocation
limit. -/
abbrev GoRuntime.canMake (rt : GoRuntime) (elemSize : Nat) (n : Int) : Prop :=
  0 ≤ n ∧ n.toNat * elemSize ≤ rt.maxAlloc

/-- Go `make([]T, n)` for an element type of `elemSize` bytes: `n` zero values, a panic
(`makeslice: len out of range`) when `n` is negative or the size is beyond the
allocation limit.  Nothing after a failed allocation is executed. -/
def make {α : Type} (rt : GoRuntime) (elemSize : Nat) (zero : α) (n : Int) :
    Outcome (List α) :=
  if rt.canMake elemSize n then .returned (List.replicate n.toNat zero)
  else .panicked .makeLenOutOfRange

/-- Go `buff[0:hi]` on a slice whose capacity is its length: the first `hi` elements,
a panic unless `0 ≤ hi ≤ len(buff)`. -/
def sliceTo {α : Type} (buff : List α) (hi : Int) : Outcome (List α) :=
  if 0 ≤ hi ∧ hi ≤ (buff.length : Int) then .returned (buff.take hi.toNat)
  else .panicked .sliceBoundsOutOfRange

/-- The contents of `buff` after a callee stored `written` into it from index 0 on:
stores beyond the end of the slice are impossible, the length never changes. -/
def overwrite {α : Type} (buff written : List α) : List α :=
  written.take buff.length ++ buff.drop written.length

/-- Go's `(value, error)` result pair; `none` is `nil` in either component. -/
structure GoRet (α Err : Type) where
  data : Option α
  err : Option Err
  deriving DecidableEq, Repr

/-! ## The external engine and the host -/

/-- Modelled from the spec: the engine's application-mode type `opus.Application`, of
which the source re-exports the three constants `VoIP`, `Audio` and `LowDelay`
(interactive-voice, general-audio, low-delay). -/
inductive Application where
  | VoIP
  | Audio
  | LowDelay
  deriving DecidableEq, Repr

/-- What an engine `Encode`/`Decode` call leaves behind: the state of the engine object,
the elements it stored into the output slice, the count it reports and its error. -/
structure EngineReply (S α Err : Type) where
  state : S
  written : List α
  n : Int
  err : Option Err

/-- The external Opus engine as the adapter uses it.  `E` and `D` are the states of a
live encoder and decoder object, `Err` the engine's error values.  Constructors return a
handle and an error, setters the new state and an error, getters a value and an error. -/
structure Engine (E D Err : Type) where
  NewEncoder : Int → Int → Application → Option E × Option Err
  NewDecoder : Int → Int → Option D × Option Err
  SetBitrateToMax : E → E × Option Err
  SetInBandFEC : E → Bool → E × Option Err
  SetPacketLossPerc : E → Int → E × Option Err
  InBandFEC : E → Bool × Option Err
  PacketLossPerc : E → Int × Option Err
  Encode : E → List Sample → List Byte → EngineReply E Byte Err
  Decode : D → List Byte → List Sample → EngineReply D Sample Err

/-- The host library's two constants `gumble.AudioSampleRate` and `gumble.AudioChannels`. -/
structure Host where
  AudioSampleRate : Int
  AudioChannels : Int
  deriving DecidableEq, Repr

/-- A call of the engine's `Encode` or `Decode`, with the slices it was handed. -/
inductive EngineCall where
  | encode (pcm : List Sample) (buff : List Byte)
  | decode (data : List Byte) (buff : List Sample)
  deriving DecidableEq, Repr

/-- A run of `Encode`/`Decode`: the engine calls it made, in order, and how it ended. -/
structure Exec (α : Type) where
  calls : List EngineCall
  result : Outcome α

/-- A step that does not touch the engine. -/
def Exec.silent {α : Type} (o : Outcome α) : Exec α := ⟨[], o⟩

/-- Sequencing of two steps: the calls of the first, then, unless it panicked, the calls
of the second. -/
def Exec.bind {α β : Type} (x : Exec α) (f : α → Exec β) : Exec β :=
  match x.result with
  | .returned a => ⟨x.calls ++ (f a).calls, (f a).result⟩
  | .panicked p => ⟨x.calls, .panicked p⟩

/-- The step `h.Encode(pcm, buff)` on the engine handle `h`: the call is recorded; through
a nil handle it panics, on a live object it returns what the engine's `Encode` does. -/
def Engine.callEncode {E D Err : Type} (eng : Engine E D Err) (h : Option E)
    (pcm : List Sample) (buff : List Byte) : Exec (EngineReply E Byte Err) :=
  ⟨[.encode pcm buff],
    match h with
    | none => .panicked .nilDereference
    | some s => .returned (eng.Encode s pcm buff)⟩

/-- The step `h.Decode(data, buff)` on the engine handle `h`: the call is recorded; through
a nil handle it panics, on a live object it returns what the engine's `Decode` does. -/
def Engine.callDecode {E D Err : Type} (eng : Engine E D Err) (h : Option D)
    (data : List Byte) (buff : List Sample) : Exec (EngineReply D Sample Err) :=
  ⟨[.decode data buff],
    match h with
    | none => .panicked .nilDereference
    | some s => .returned (eng.Decode s data buff)⟩

/-! ## The adapter -/

/-- The constant `codecId`. -/
def codecId : Int := 4

/-- The struct `OpusCodec`. -/
structure OpusCodec where
  application : Application
  fec : Bool
  packetLoss : Int
  deriving DecidableEq, Repr

/-- The struct `OpusEncoder`; `enc` is the engine handle. -/
structure OpusEncoder (E : Type) where
  enc : Option E
  application : Application
  channels : Int
  deriving DecidableEq, Repr

/-- The struct `OpusDecoder`; `dec` is the engine handle. -/
structure OpusDecoder (D : Type) where
  dec : Option D
  channels : Int
  deriving DecidableEq, Repr

/-- The arguments of the one call `gumble.RegisterAudioCodec(key, codec)`. -/
structure Registration where
  key : Int
  codec : OpusCodec
  deriving DecidableEq, Repr

/-- The function `Register`: builds the codec from its three arguments and registers it
under the literal key 4. -/
def Register (application : Application) (fec : Bool) (packetLoss : Int) : Registration :=
  let codec : OpusCodec := { application := application, fec := fec, packetLoss := packetLoss }
  { key := 4, codec := codec }

/-- The method `(*OpusCodec).ID`. -/
def OpusCodec.ID (_c : OpusCodec) : Int := codecId

/-- The method `(*OpusCodec).NewEncoder`.  The constructor's error and the setters'
errors are discarded; the setters are called through the handle the constructor
returned. -/
def OpusCodec.NewEncoder {E D Err : Type} (eng : Engine E D Err) (host : Host)
    (c : OpusCodec) : Outcome (OpusEncoder E) :=
  match (eng.NewEncoder host.AudioSampleRate host.AudioChannels c.application).1 with
  | none => .panicked .nilDereference
  | some e0 =>
    let e1 := (eng.SetBitrateToMax e0).1
    let e2 := (eng.SetInBandFEC e1 c.fec).1
    let e3 := (eng.SetPacketLossPerc e2 c.packetLoss).1
    .returned { enc := some e3, application := c.application, channels := host.AudioChannels }

/-- The method `(*OpusCodec).NewDecoder`.  The constructor's error is discarded. -/
def OpusCodec.NewDecoder {E D Err : Type} (eng : Engine E D Err) (host : Host)
    (_c : OpusCodec) : OpusDecoder D :=
  { dec := (eng.NewDecoder host.AudioSampleRate host.AudioChannels).1,
    channels := host.AudioChannels }

/-- The method `(*OpusEncoder).ID`. -/
def OpusEncoder.ID {E : Type} (_e : OpusEncoder E) : Int := codecId

/-- The method `(*OpusEncoder).Encode`.  `mframeSize` is not used by the body; a byte
takes 1 byte. -/
def OpusEncoder.Encode {E D Err : Type} (rt : GoRuntime) (eng : Engine E D Err)
    (e : OpusEncoder E) (pcm : List Sample) (_mframeSize maxDataBytes : Int) :
    Exec (OpusEncoder E × GoRet (List Byte) Err) :=
  (Exec.silent (make rt 1 (0 : Byte) maxDataBytes)).bind fun buff =>
  (eng.callEncode e.enc pcm buff).bind fun io =>
  match io.err with
  | some err => Exec.silent (.returned ({ e with enc := some io.state }, ⟨none, some err⟩))
  | none =>
    (Exec.silent (sliceTo (overwrite buff io.written) (wrapInt (io.n * e.channels)))).bind
      fun out => Exec.silent (.returned ({ e with enc := some io.state }, ⟨some out, none⟩))

/-- The method `(*OpusEncoder).Reset`.  The FEC flag and the packet-loss percentage are
read from the newly built engine object `enc` and written back to it. -/
def OpusEncoder.Reset {E D Err : Type} (eng : Engine E D Err) (host : Host)
    (e : OpusEncoder E) : Outcome (OpusEncoder E) :=
  match (eng.NewEncoder host.AudioSampleRate host.AudioChannels e.application).1 with
  | none => .panicked .nilDereference
  | some e0 =>
    let e1 := (eng.SetBitrateToMax e0).1
    let fec := (eng.InBandFEC e1).1
    let e2 := (eng.SetInBandFEC e1 fec).1
    let packetLoss := (eng.PacketLossPerc e2).1
    let e3 := (eng.SetPacketLossPerc e2 packetLoss).1
    .returned { e with enc := some e3 }

/-- The method `(*OpusDecoder).ID`. -/
def OpusDecoder.ID {D : Type} (_d : OpusDecoder D) : Int := codecId

/-- The method `(*OpusDecoder).Decode`; an `int16` sample takes 2 bytes. -/
def OpusDecoder.Decode {E D Err : Type} (rt : GoRuntime) (eng : Engine E D Err)
    (d : OpusDecoder D) (data : List Byte) (frameSize : Int) :
    Exec (OpusDecoder D × GoRet (List Sample) Err) :=
  (Exec.silent (make rt 2 (0 : Sample) (wrapInt (frameSize * d.channels)))).bind fun buff =>
  (eng.callDecode d.dec data buff).bind fun io =>
  match io.err with
  | some err => Exec.silent (.returned ({ d with dec := some io.state }, ⟨none, some err⟩))
  | none =>
    (Exec.silent (sliceTo (overwrite buff io.written) (wrapInt (d.channels * io.n)))).bind
      fun out => Exec.silent (.returned ({ d with dec := some io.state }, ⟨some out, none⟩))

/-- The method `(*OpusDecoder).Reset`.  The constructor's error is discarded. -/
def OpusDecoder.Reset {E D Err : Type} (eng : Engine E D Err) (host : Host)
    (d : OpusDecoder D) : OpusDecoder D :=
  { d with dec := (eng.NewDecoder host.AudioSampleRate host.AudioChannels).1 }

/-! ## A small engine to run the adapter on -/

/-- Error values of the toy engine. -/
inductive ToyErr where
  | badArg
  | bufferTooSmall
  | invalidPacket
  deriving DecidableEq, Repr

/-- State of a toy encoder object: what it was built with and its three settings. -/
structure ToyEnc where
  rate : Int
  channels : Int
  app : Application
  maxBitrate : Bool
  fec : Bool
  loss : Int
  deriving DecidableEq, Repr

/-- State of a toy decoder object. -/
structure ToyDec where
  rate : Int
  channels : Int
  deriving DecidableEq, Repr

/-- A toy engine with the interface of the external one.  A fresh encoder has FEC off
and packet loss 0; construction fails (nil handle and an error) unless the sample rate is
positive and there are one or two channels; the packet-loss setter accepts 0..100.  A
packet is one byte holding the number of samples per channel (mod 256): `Encode` accepts
any non-empty input that is a whole number of frames and reports 1 byte written, `Decode`
produces that many zero samples per channel and reports the per-channel count. -/
def toyEngine : Engine ToyEnc ToyDec ToyErr where
  NewEncoder := fun rate ch app =>
    if 0 < rate ∧ (ch = 1 ∨ ch = 2) then
      (some { rate := rate, channels := ch, app := app,
              maxBitrate := false, fec := false, loss := 0 }, none)
    else (none, some .badArg)
  NewDecoder := fun rate ch =>
    if 0 < rate ∧ (ch = 1 ∨ ch = 2) then (some { rate := rate, channels := ch }, none)
    else (none, some .badArg)
  SetBitrateToMax := fun s => ({ s with maxBitrate := true }, none)
  SetInBandFEC := fun s b => ({ s with fec := b }, none)
  SetPacketLossPerc := fun s p =>
    if 0 ≤ p ∧ p ≤ 100 then ({ s with loss := p }, none) else (s, some .badArg)
  InBandFEC := fun s => (s.fec, none)
  PacketLossPerc := fun s => (s.loss, none)
  Encode := fun s pcm buff =>
    if pcm.length = 0 ∨ pcm.length % s.channels.toNat ≠ 0 then ⟨s, [], 0, some .badArg⟩
    else if buff.length = 0 then ⟨s, [], 0, some .bufferTooSmall⟩
    else ⟨s, [pcm.length / s.channels.toNat % 256], 1, none⟩
  Decode := fun s data buff =>
    match data with
    | [] => ⟨s, [], 0, some .invalidPacket⟩
    | k :: _ =>
      if k * s.channels.toNat ≤ buff.length then
        ⟨s, List.replicate (k * s.channels.toNat) 0, (k : Int), none⟩
      else ⟨s, [], 0, some .bufferTooSmall⟩

/-- The runtime of linux/amd64: allocations up to `2 ^ 48` bytes. -/
def linuxAmd64 : GoRuntime := { maxAlloc := 281474976710656 }

/-- A host with the sample rate 48000 and one channel. -/
def monoHost : Host := { AudioSampleRate := 48000, AudioChannels := 1 }

/-- A host with the sample rate 48000 and two channels. -/
def stereoHost : Host := { AudioSampleRate := 48000, AudioChannels := 2 }

/-- A host whose sample rate the toy engine rejects. -/
def brokenHost : Host := { AudioSampleRate := 0, AudioChannels := 1 }

/-- The codec used in the examples: interactive voice, FEC on, 20 % expected loss. -/
def voiceCodec : OpusCodec := { application := .VoIP, fec := true, packetLoss := 20 }

/-- The encoder `voiceCodec.NewEncoder()` yields on the toy engine under `stereoHost`. -/
def stereoEncoder : OpusEncoder ToyEnc :=
  { enc := some { rate := 48000, channels := 2, app := .VoIP,
                  maxBitrate := true, fec := true, loss := 20 },
    application := .VoIP, channels := 2 }

/-- The encoder `voiceCodec.NewEncoder()` yields on the toy engine under `monoHost`. -/
def monoEncoder : OpusEncoder ToyEnc :=
  { enc := some { rate := 48000, channels := 1, app := .VoIP,
                  maxBitrate := true, fec := true, loss := 20 },
    application := .VoIP, channels := 1 }

/-- The decoder `voiceCodec.NewDecoder()` yields on the toy engine under `stereoHost`. -/
def stereoDecoder : OpusDecoder ToyDec :=
  { dec := some { rate := 48000, channels := 2 }, channels := 2 }

/-- The decoder `voiceCodec.NewDecoder()` yields on the toy engine under `monoHost`. -/
def monoDecoder : OpusDecoder ToyDec :=
  { dec := some { rate := 48000, channels := 1 }, channels := 1 }

/-- The frame sizes (samples per channel at 48 kHz) of the supported durations. -/
def supportedFrameSizes : List Int := [120, 240, 480, 960, 1920, 2880]

/-- Laws of a well-behaved engine, for the settings the adapter configures.
`bitrateIsMax` is any property of an encoder object that `SetBitrateToMax` establishes
and the two other setters keep. -/
structure Engine.Lawful {E D Err : Type} (eng : Engine E D Err)
    (bitrateIsMax : E → Prop) : Prop where
  max_set : ∀ s, (eng.SetBitrateToMax s).2 = none → bitrateIsMax (eng.SetBitrateToMax s).1
  max_setFEC : ∀ s b, bitrateIsMax s → bitrateIsMax (eng.SetInBandFEC s b).1
  max_setLoss : ∀ s p, bitrateIsMax s → bitrateIsMax (eng.SetPacketLossPerc s p).1
  fec_set : ∀ s b, (eng.SetInBandFEC s b).2 = none →
    eng.InBandFEC (eng.SetInBandFEC s b).1 = (b, none)
  fec_setLoss : ∀ s p, eng.InBandFEC (eng.SetPacketLossPerc s p).1 = eng.InBandFEC s
  loss_set : ∀ s p, (eng.SetPacketLossPerc s p).2 = none →
    eng.PacketLossPerc (eng.SetPacketLossPerc s p).1 = (p, none)

/-! ## Facts about the Go layer -/

theorem make_of_canMake {α : Type} (rt : GoRuntime) (elemSize : Nat) (z : α) {n : Int}
    (h : rt.canMake elemSize n) :
    make rt elemSize z n = .returned (List.replicate n.toNat z) := by
  simp only [make, if_pos h]

theorem wrapInt_of_range {x : Int} (h0 : 0 ≤ x) (h1 : x < 2 ^ 63) : wrapInt x = x := by
  unfold wrapInt
  norm_num at h1 ⊢
  omega

theorem length_overwrite {α : Type} (buff written : List α) :
    (overwrite buff written).length = buff.length := by
  simp only [overwrite, List.length_append, List.length_take, List.length_drop]
  omega

theorem sliceTo_of_range {α : Type} (buff : List α) {hi : Int} (h0 : 0 ≤ hi)
    (h1 : hi ≤ (buff.length : Int)) : sliceTo buff hi = .returned (buff.take hi.toNat) := by
  simp [sliceTo, h0, h1]

theorem toyEngine_lawful : toyEngine.Lawful (fun s => s.maxBitrate = true) where
  max_set := by intro s _; rfl
  max_setFEC := by intro s b h; exact h
  max_setLoss := by
    intro s p h
    simp only [toyEngine]
    split <;> exact h
  fec_set := by intro s b _; rfl
  fec_setLoss := by
    intro s p
    simp only [toyEngine]
    split <;> rfl
  loss_set := by
    intro s p h
    simp only [toyEngine] at h ⊢
    split at h
    · rename_i hp; simp [hp]
    · simp at h

/-! ## Codec identity and registration -/

/-- C8: the codec identifier is 4 for every codec, encoder and decoder, also for the
objects `NewEncoder`, `NewDecoder` and `Reset` return, and `Register` registers the
codec under the value its `ID` returns. -/
theorem codec_id_is_four {E D Err : Type} (eng : Engine E D Err) (host : Host)
    (c : OpusCodec) (e : OpusEncoder E) (d : OpusDecoder D)
    (application : Application) (fec : Bool) (packetLoss : Int) :
    c.ID = 4 ∧ e.ID = 4 ∧ d.ID = 4 ∧
    (c.NewDecoder eng host).ID = 4 ∧ (d.Reset eng host).ID = 4 ∧
    ((c.NewEncoder eng host).bind fun e1 => .returned e1.ID) =
      ((c.NewEncoder eng host).bind fun _ => .returned 4) ∧
    ((e.Reset eng host).bind fun e1 => .returned e1.ID) =
      ((e.Reset eng host).bind fun _ => .returned 4) ∧
    (Register application fec packetLoss).key =
      (Register application fec packetLoss).codec.ID :=
  ⟨rfl, rfl, rfl, rfl, rfl, rfl, rfl, rfl⟩

/-- C9 (failing input): `Register(VoIP, false, 0)` stores the FEC flag `false`, and the
encoder the registered codec creates has in-band FEC switched off. -/
theorem Register_VoIP_keeps_fec_off :
    (Register .VoIP false 0).codec.fec = false ∧
    ∃ s, (Register .VoIP false 0).codec.NewEncoder toyEngine monoHost =
        .returned { enc := some s, application := .VoIP, channels := 1 } ∧
      toyEngine.InBandFEC s = (false, none) :=
  ⟨rfl, _, rfl, rfl⟩

/-! ## Building and resetting encoders and decoders -/

/-- C7: when the engine's constructor and the three setters succeed, `NewEncoder` returns
an encoder whose engine object was built at the host's sample rate and channel count with
the stored application mode and then configured by `SetBitrateToMax`, `SetInBandFEC` and
`SetPacketLossPerc` in this order; on a lawful engine it has the bitrate at maximum and
reports the stored FEC flag and packet-loss percentage.  The recorded application mode
and channel count are the stored mode and the host's channel count. -/
theorem NewEncoder_configured {E D Err : Type} (eng : Engine E D Err)
    (bitrateIsMax : E → Prop) (host : Host) (c : OpusCodec) (e0 : E)
    (hlaw : eng.Lawful bitrateIsMax)
    (hnew : eng.NewEncoder host.AudioSampleRate host.AudioChannels c.application
      = (some e0, none))
    (hmax : (eng.SetBitrateToMax e0).2 = none)
    (hfec : (eng.SetInBandFEC (eng.SetBitrateToMax e0).1 c.fec).2 = none)
    (hloss : (eng.SetPacketLossPerc (eng.SetInBandFEC (eng.SetBitrateToMax e0).1 c.fec).1
      c.packetLoss).2 = none) :
    ∃ s, c.NewEncoder eng host = .returned
        { enc := some s, application := c.application, channels := host.AudioChannels } ∧
      s = (eng.SetPacketLossPerc (eng.SetInBandFEC (eng.SetBitrateToMax e0).1 c.fec).1
        c.packetLoss).1 ∧
      bitrateIsMax s ∧
      eng.InBandFEC s = (c.fec, none) ∧
      eng.PacketLossPerc s = (c.packetLoss, none) := by
  refine ⟨_, ?_, rfl, ?_, ?_, ?_⟩
  · simp only [OpusCodec.NewEncoder, hnew]
  · exact hlaw.max_setLoss _ _ (hlaw.max_setFEC _ _ (hlaw.max_set _ hmax))
  · rw [hlaw.fec_setLoss]
    exact hlaw.fec_set _ _ hfec
  · exact hlaw.loss_set _ _ hloss

theorem NewEncoder_configured_witness :
    ∃ s, voiceCodec.NewEncoder toyEngine stereoHost = .returned
        { enc := some s, application := .VoIP, channels := 2 } ∧
      s = (toyEngine.SetPacketLossPerc (toyEngine.SetInBandFEC (toyEngine.SetBitrateToMax
        { rate := 48000, channels := 2, app := .VoIP, maxBitrate := false, fec := false,
          loss := 0 }).1 true).1 20).1 ∧
      s.maxBitrate = true ∧
      toyEngine.InBandFEC s = (true, none) ∧
      toyEngine.PacketLossPerc s = (20, none) :=
  NewEncoder_configured toyEngine (fun s => s.maxBitrate = true) stereoHost voiceCodec
    { rate := 48000, channels := 2, app := .VoIP, maxBitrate := false, fec := false,
      loss := 0 }
    toyEngine_lawful (by decide) (by decide) (by decide) (by decide)

/-- C2 (failing input): an encoder whose engine object reports FEC on and 20 % packet
loss is reset; the new engine object reports FEC off and 0 % packet loss, the values of
a freshly built object. -/
theorem Reset_loses_fec_and_packet_loss :
    voiceCodec.NewEncoder toyEngine stereoHost = .returned stereoEncoder ∧
    stereoEncoder.enc.map toyEngine.InBandFEC = some (true, none) ∧
    stereoEncoder.enc.map toyEngine.PacketLossPerc = some (20, none) ∧
    ∃ e1, stereoEncoder.Reset toyEngine stereoHost = .returned e1 ∧
      e1.enc.map toyEngine.InBandFEC = some (false, none) ∧
      e1.enc.map toyEngine.PacketLossPerc = some (0, none) :=
  ⟨by decide, by decide, by decide, _, rfl, by decide, by decide⟩

/-- Whatever engine handle an encoder holds, `Reset` ends the same way: the old handle,
and with it the settings of the old engine object, has no influence on the result. -/
theorem Reset_ignores_old_handle {E D Err : Type} (eng : Engine E D Err) (host : Host)
    (e : OpusEncoder E) (h : Option E) :
    OpusEncoder.Reset eng host { e with enc := h } = e.Reset eng host := by
  simp only [OpusEncoder.Reset]

/-- C10: `Reset` is idempotent and keeps the wrapper's own fields.  For a decoder,
resetting twice gives the same decoder as resetting once, with the same channel count and
the handle of a fresh engine object built at the host's sample rate and channel count.
For an encoder, resetting twice ends as resetting once does; when `Reset` returns, the
recorded channel count and application mode are unchanged; and `Reset` does return when
the engine hands back a live object for the host's sample rate and channel count and the
encoder's application mode, the new handle being that fresh object after the setter
calls. -/
theorem Reset_idempotent {E D Err : Type} (eng : Engine E D Err) (host : Host)
    (d : OpusDecoder D) (e : OpusEncoder E) :
    (d.Reset eng host).Reset eng host = d.Reset eng host ∧
    (d.Reset eng host).channels = d.channels ∧
    (d.Reset eng host).dec = (eng.NewDecoder host.AudioSampleRate host.AudioChannels).1 ∧
    (e.Reset eng host).bind (OpusEncoder.Reset eng host) = e.Reset eng host ∧
    (∀ e1, e.Reset eng host = .returned e1 →
      e1.channels = e.channels ∧ e1.application = e.application ∧
      e1.Reset eng host = .returned e1) ∧
    (∀ e0 err, eng.NewEncoder host.AudioSampleRate host.AudioChannels e.application
        = (some e0, err) →
      ∃ s, e.Reset eng host = .returned
          { enc := some s, application := e.application, channels := e.channels } ∧
        s = (eng.SetPacketLossPerc
          (eng.SetInBandFEC (eng.SetBitrateToMax e0).1
            (eng.InBandFEC (eng.SetBitrateToMax e0).1).1).1
          (eng.PacketLossPerc (eng.SetInBandFEC (eng.SetBitrateToMax e0).1
            (eng.InBandFEC (eng.SetBitrateToMax e0).1).1).1).1).1) := by
  have key : ∀ e1, e.Reset eng host = .returned e1 →
      e1.channels = e.channels ∧ e1.application = e.application ∧
      e1.Reset eng host = .returned e1 := by
    intro e1 h
    unfold OpusEncoder.Reset at h
    cases hn : (eng.NewEncoder host.AudioSampleRate host.AudioChannels e.application).1 with
    | none => simp [hn] at h
    | some e0 =>
      simp only [hn, Outcome.returned.injEq] at h
      subst h
      refine ⟨rfl, rfl, ?_⟩
      simp only [OpusEncoder.Reset, hn]
  refine ⟨rfl, rfl, rfl, ?_, key, ?_⟩
  · cases h : e.Reset eng host with
    | returned e1 => exact (key e1 h).2.2
    | panicked p => rfl
  · intro e0 err h
    simp only [OpusEncoder.Reset, h]
    exact ⟨_, rfl, rfl⟩

theorem Reset_idempotent_witness :
    (stereoDecoder.Reset toyEngine stereoHost).Reset toyEngine stereoHost
      = stereoDecoder.Reset toyEngine stereoHost ∧
    (stereoDecoder.Reset toyEngine stereoHost).channels = 2 ∧
    (stereoEncoder.Reset toyEngine stereoHost).bind (OpusEncoder.Reset toyEngine stereoHost)
      = stereoEncoder.Reset toyEngine stereoHost ∧
    ∃ e1, stereoEncoder.Reset toyEngine stereoHost = .returned e1 ∧
      e1.channels = 2 ∧ e1.application = .VoIP ∧
      e1.Reset toyEngine stereoHost = .returned e1 := by
  have h := Reset_idempotent toyEngine stereoHost stereoDecoder stereoEncoder
  obtain ⟨s, hs, -⟩ := h.2.2.2.2.2
    { rate := 48000, channels := 2, app := .VoIP, maxBitrate := false, fec := false,
      loss := 0 } none (by decide)
  exact ⟨h.1, h.2.1, h.2.2.2.1, _, hs, h.2.2.2.2.1 _ hs⟩

/-! ## How `Encode` and `Decode` run -/

theorem Encode_nil_handle {E D Err : Type} (rt : GoRuntime) (eng : Engine E D Err) (e : OpusEncoder E)
    (pcm : List Sample) (mframeSize maxDataBytes : Int) (h : rt.canMake 1 maxDataBytes)
    (he : e.enc = none) :
    e.Encode rt eng pcm mframeSize maxDataBytes =
      ⟨[.encode pcm (List.replicate maxDataBytes.toNat 0)], .panicked .nilDereference⟩ := by
  simp only [OpusEncoder.Encode, make_of_canMake rt 1 _ h, Exec.bind, Exec.silent,
    Engine.callEncode, List.nil_append, List.append_nil, he]

theorem Encode_engine_error {E D Err : Type} (rt : GoRuntime) (eng : Engine E D Err) (e : OpusEncoder E)
    (pcm : List Sample) (mframeSize maxDataBytes : Int) (h : rt.canMake 1 maxDataBytes) (s : E)
    (err : Err) (he : e.enc = some s)
    (herr : (eng.Encode s pcm (List.replicate maxDataBytes.toNat 0)).err = some err) :
    e.Encode rt eng pcm mframeSize maxDataBytes =
      ⟨[.encode pcm (List.replicate maxDataBytes.toNat 0)],
        .returned (⟨some (eng.Encode s pcm (List.replicate maxDataBytes.toNat 0)).state,
          e.application, e.channels⟩,
          ⟨none, some err⟩)⟩ := by
  simp only [OpusEncoder.Encode, make_of_canMake rt 1 _ h, Exec.bind, Exec.silent,
    Engine.callEncode, List.nil_append, List.append_nil, he, herr]

theorem Encode_engine_ok {E D Err : Type} (rt : GoRuntime) (eng : Engine E D Err) (e : OpusEncoder E)
    (pcm : List Sample) (mframeSize maxDataBytes : Int) (h : rt.canMake 1 maxDataBytes) (s : E)
    (he : e.enc = some s)
    (herr : (eng.Encode s pcm (List.replicate maxDataBytes.toNat 0)).err = none) :
    e.Encode rt eng pcm mframeSize maxDataBytes =
      ⟨[.encode pcm (List.replicate maxDataBytes.toNat 0)],
        (sliceTo (overwrite (List.replicate maxDataBytes.toNat 0)
            (eng.Encode s pcm (List.replicate maxDataBytes.toNat 0)).written)
          (wrapInt ((eng.Encode s pcm (List.replicate maxDataBytes.toNat 0)).n
            * e.channels))).bind
          fun out => .returned (⟨some (eng.Encode s pcm (List.replicate maxDataBytes.toNat 0)).state,
          e.application, e.channels⟩,
            ⟨some out, none⟩)⟩ := by
  simp only [OpusEncoder.Encode, make_of_canMake rt 1 _ h, Exec.bind, Exec.silent,
    Engine.callEncode, List.nil_append, List.append_nil, he, herr]
  cases sliceTo (overwrite (List.replicate maxDataBytes.toNat 0)
      (eng.Encode s pcm (List.replicate maxDataBytes.toNat 0)).written)
    (wrapInt ((eng.Encode s pcm (List.replicate maxDataBytes.toNat 0)).n * e.channels)) <;> rfl

theorem Decode_nil_handle {E D Err : Type} (rt : GoRuntime) (eng : Engine E D Err) (d : OpusDecoder D)
    (data : List Byte) (frameSize : Int) (h : rt.canMake 2 (wrapInt (frameSize * d.channels)))
    (hd : d.dec = none) :
    d.Decode rt eng data frameSize =
      ⟨[.decode data (List.replicate (wrapInt (frameSize * d.channels)).toNat 0)],
        .panicked .nilDereference⟩ := by
  simp only [OpusDecoder.Decode, make_of_canMake rt 2 _ h, Exec.bind, Exec.silent,
    Engine.callDecode, List.nil_append, List.append_nil, hd]

theorem Decode_engine_error {E D Err : Type} (rt : GoRuntime) (eng : Engine E D Err) (d : OpusDecoder D)
    (data : List Byte) (frameSize : Int) (h : rt.canMake 2 (wrapInt (frameSize * d.channels))) (s : D)
    (err : Err) (hd : d.dec = some s)
    (herr : (eng.Decode s data
      (List.replicate (wrapInt (frameSize * d.channels)).toNat 0)).err = some err) :
    d.Decode rt eng data frameSize =
      ⟨[.decode data (List.replicate (wrapInt (frameSize * d.channels)).toNat 0)],
        .returned (⟨some (eng.Decode s data
          (List.replicate (wrapInt (frameSize * d.channels)).toNat 0)).state, d.channels⟩,
          ⟨none, some err⟩)⟩ := by
  simp only [OpusDecoder.Decode, make_of_canMake rt 2 _ h, Exec.bind, Exec.silent,
    Engine.callDecode, List.nil_append, List.append_nil, hd, herr]

theorem Decode_engine_ok {E D Err : Type} (rt : GoRuntime) (eng : Engine E D Err) (d : OpusDecoder D)
    (data : List Byte) (frameSize : Int) (h : rt.canMake 2 (wrapInt (frameSize * d.channels))) (s : D)
    (hd : d.dec = some s)
    (herr : (eng.Decode s data
      (List.replicate (wrapInt (frameSize * d.channels)).toNat 0)).err = none) :
    d.Decode rt eng data frameSize =
      ⟨[.decode data (List.replicate (wrapInt (frameSize * d.channels)).toNat 0)],
        (sliceTo (overwrite (List.replicate (wrapInt (frameSize * d.channels)).toNat 0)
            (eng.Decode s data
              (List.replicate (wrapInt (frameSize * d.channels)).toNat 0)).written)
          (wrapInt (d.channels * (eng.Decode s data
            (List.replicate (wrapInt (frameSize * d.channels)).toNat 0)).n))).bind
          fun out => .returned (⟨some (eng.Decode s data
          (List.replicate (wrapInt (frameSize * d.channels)).toNat 0)).state, d.channels⟩,
            ⟨some out, none⟩)⟩ := by
  simp only [OpusDecoder.Decode, make_of_canMake rt 2 _ h, Exec.bind, Exec.silent,
    Engine.callDecode, List.nil_append, List.append_nil, hd, herr]
  cases sliceTo (overwrite (List.replicate (wrapInt (frameSize * d.channels)).toNat 0)
      (eng.Decode s data
        (List.replicate (wrapInt (frameSize * d.channels)).toNat 0)).written)
    (wrapInt (d.channels * (eng.Decode s data
      (List.replicate (wrapInt (frameSize * d.channels)).toNat 0)).n)) <;> rfl

/-! ## Encoding -/

/-- C1 (failing input): on an encoder with two channels the engine reports 1 byte
written, without error, into a 4-byte buffer, and `Encode` returns the first 2 bytes of
the buffer; with a 1-byte buffer the engine again reports 1 byte written and `Encode`
panics on the slice bound instead of returning. -/
theorem Encode_stereo_returns_twice_the_reported_bytes :
    stereoEncoder.enc.map (fun s => ((toyEngine.Encode s [0, 0] [0, 0, 0, 0]).n,
      (toyEngine.Encode s [0, 0] [0, 0, 0, 0]).err)) = some (1, none) ∧
    (stereoEncoder.Encode linuxAmd64 toyEngine [0, 0] 1 4).result
      = .returned (stereoEncoder, ⟨some [1, 0], none⟩) ∧
    stereoEncoder.enc.map (fun s => ((toyEngine.Encode s [0, 0] [0]).n,
      (toyEngine.Encode s [0, 0] [0]).err)) = some (1, none) ∧
    (stereoEncoder.Encode linuxAmd64 toyEngine [0, 0] 1 1).result
      = .panicked .sliceBoundsOutOfRange :=
  ⟨by decide, by decide, by decide, by decide⟩

/-- With one channel `Encode` returns exactly the bytes the engine reports: if the
engine succeeds reporting `n` bytes with `0 ≤ n ≤ maxDataBytes` (`maxDataBytes` being a
Go `int` and a size the runtime can allocate), the result is the first `n` bytes of the
buffer and has length `n`. -/
theorem Encode_mono_returns_the_reported_bytes {E D Err : Type} (rt : GoRuntime)
    (eng : Engine E D Err)
    (e : OpusEncoder E) (pcm : List Sample) (mframeSize maxDataBytes : Int) (s : E)
    (hch : e.channels = 1) (h : rt.canMake 1 maxDataBytes) (he : e.enc = some s)
    (herr : (eng.Encode s pcm (List.replicate maxDataBytes.toNat 0)).err = none)
    (hn0 : 0 ≤ (eng.Encode s pcm (List.replicate maxDataBytes.toNat 0)).n)
    (hn1 : (eng.Encode s pcm (List.replicate maxDataBytes.toNat 0)).n ≤ maxDataBytes)
    (hint : maxDataBytes < 2 ^ 63) :
    ∃ out, (e.Encode rt eng pcm mframeSize maxDataBytes).result
        = .returned (⟨some (eng.Encode s pcm (List.replicate maxDataBytes.toNat 0)).state,
            e.application, e.channels⟩, ⟨some out, none⟩) ∧
      out = (overwrite (List.replicate maxDataBytes.toNat 0)
        (eng.Encode s pcm (List.replicate maxDataBytes.toNat 0)).written).take
        (eng.Encode s pcm (List.replicate maxDataBytes.toNat 0)).n.toNat ∧
      (out.length : Int) = (eng.Encode s pcm (List.replicate maxDataBytes.toNat 0)).n := by
  have hlen : ((overwrite (List.replicate maxDataBytes.toNat (0 : Byte))
      (eng.Encode s pcm (List.replicate maxDataBytes.toNat 0)).written).length : Int)
      = maxDataBytes := by
    rw [length_overwrite, List.length_replicate]
    exact Int.toNat_of_nonneg h.1
  have hw : wrapInt ((eng.Encode s pcm (List.replicate maxDataBytes.toNat 0)).n
      * e.channels) = (eng.Encode s pcm (List.replicate maxDataBytes.toNat 0)).n := by
    rw [hch, mul_one]
    exact wrapInt_of_range hn0 (lt_of_le_of_lt hn1 hint)
  refine ⟨_, ?_, rfl, ?_⟩
  · rw [Encode_engine_ok rt eng e pcm mframeSize maxDataBytes h s he herr, hw,
      sliceTo_of_range _ hn0 (by rw [hlen]; exact hn1)]
    rfl
  · rw [List.length_take]
    have := Int.toNat_of_nonneg hn0
    omega

theorem Encode_mono_returns_the_reported_bytes_witness :
    ∃ out, (monoEncoder.Encode linuxAmd64 toyEngine [0, 0, 0] 3 4).result
        = .returned (monoEncoder, ⟨some out, none⟩) ∧ (out.length : Int) = 1 := by
  obtain ⟨out, hres, -, hlen⟩ := Encode_mono_returns_the_reported_bytes linuxAmd64 toyEngine
    monoEncoder
    [0, 0, 0] 3 4 ⟨48000, 1, .VoIP, true, true, 20⟩
    rfl (by decide) rfl (by decide) (by decide) (by decide) (by decide)
  exact ⟨out, hres, hlen⟩

/-- C5 (counterexample): three samples on a one-channel encoder with the frame size 7,
which is neither the buffer length nor a supported frame size: `Encode` calls the
engine's encode and, the engine accepting the input, returns data and no error. -/
theorem Encode_accepts_unsupported_frame_size :
    (([0, 0, 0] : List Sample).length : Int) ≠ 7 * monoEncoder.channels ∧
    (7 : Int) ∉ supportedFrameSizes ∧
    (monoEncoder.Encode linuxAmd64 toyEngine [0, 0, 0] 7 4).calls = [.encode [0, 0, 0] [0, 0, 0, 0]] ∧
    (monoEncoder.Encode linuxAmd64 toyEngine [0, 0, 0] 7 4).result
      = .returned (monoEncoder, ⟨some [3], none⟩) :=
  ⟨by decide, by decide, by decide, by decide⟩

/-- C5 (amended): `Encode` does not validate its input.  The frame-size argument has no
effect on the run; whenever the output buffer can be allocated (`maxDataBytes ≥ 0` and
within the runtime's allocation limit) the engine's encode is called exactly once, with
the samples as given and a zeroed buffer of `maxDataBytes` bytes, whatever the buffer
length and frame size are; and an error is returned only when that engine call reports
it. -/
theorem Encode_does_not_validate {E D Err : Type} (rt : GoRuntime) (eng : Engine E D Err)
    (e : OpusEncoder E) (pcm : List Sample) (mframeSize otherFrameSize maxDataBytes : Int)
    (h : rt.canMake 1 maxDataBytes) :
    e.Encode rt eng pcm mframeSize maxDataBytes = e.Encode rt eng pcm otherFrameSize maxDataBytes ∧
    (e.Encode rt eng pcm mframeSize maxDataBytes).calls
      = [.encode pcm (List.replicate maxDataBytes.toNat 0)] ∧
    ∀ st dat err, (e.Encode rt eng pcm mframeSize maxDataBytes).result
        = .returned (st, ⟨dat, some err⟩) →
      ∃ s, e.enc = some s ∧
        (eng.Encode s pcm (List.replicate maxDataBytes.toNat 0)).err = some err := by
  refine ⟨rfl, ?_, ?_⟩
  · cases he : e.enc with
    | none => rw [Encode_nil_handle rt eng e pcm mframeSize maxDataBytes h he]
    | some s =>
      cases herr : (eng.Encode s pcm (List.replicate maxDataBytes.toNat 0)).err with
      | none => rw [Encode_engine_ok rt eng e pcm mframeSize maxDataBytes h s he herr]
      | some err => rw [Encode_engine_error rt eng e pcm mframeSize maxDataBytes h s err he herr]
  · intro st dat err hret
    cases he : e.enc with
    | none =>
      rw [Encode_nil_handle rt eng e pcm mframeSize maxDataBytes h he] at hret
      simp at hret
    | some s =>
      refine ⟨s, rfl, ?_⟩
      cases herr : (eng.Encode s pcm (List.replicate maxDataBytes.toNat 0)).err with
      | none =>
        rw [Encode_engine_ok rt eng e pcm mframeSize maxDataBytes h s he herr] at hret
        dsimp only at hret
        cases hs : sliceTo (overwrite (List.replicate maxDataBytes.toNat 0)
            (eng.Encode s pcm (List.replicate maxDataBytes.toNat 0)).written)
          (wrapInt ((eng.Encode s pcm (List.replicate maxDataBytes.toNat 0)).n
            * e.channels)) with
        | returned out => rw [hs] at hret; simp [Outcome.bind] at hret
        | panicked p => rw [hs] at hret; simp [Outcome.bind] at hret
      | some err1 =>
        rw [Encode_engine_error rt eng e pcm mframeSize maxDataBytes h s err1 he herr] at hret
        simp at hret
        rw [hret.2.2]

theorem Encode_does_not_validate_witness :
    linuxAmd64.canMake 1 4 ∧
    monoEncoder.Encode linuxAmd64 toyEngine [0, 0, 0] 7 4 = monoEncoder.Encode linuxAmd64 toyEngine [0, 0, 0] 3 4 ∧
    (monoEncoder.Encode linuxAmd64 toyEngine [0, 0, 0] 7 4).calls
      = [.encode [0, 0, 0] (List.replicate (4 : Int).toNat 0)] ∧
    ∀ st dat err, (monoEncoder.Encode linuxAmd64 toyEngine [0, 0, 0] 7 4).result
        = .returned (st, ⟨dat, some err⟩) →
      ∃ s, monoEncoder.enc = some s ∧
        (toyEngine.Encode s [0, 0, 0] (List.replicate (4 : Int).toNat 0)).err = some err :=
  ⟨by decide,
    Encode_does_not_validate linuxAmd64 toyEngine monoEncoder [0, 0, 0] 7 3 4 (by decide)⟩

/-- C4 (counterexample): with `maxDataBytes = -1` the buffer allocation in `Encode`
panics, and with `frameSize = -1` the one in `Decode` does; so do, beyond the allocation
limit of linux/amd64, the ones for `maxDataBytes = 2 ^ 62` and for `frameSize = 2 ^ 62`
on one channel.  In none of these runs the engine is called. -/
theorem no_engine_call_when_allocation_panics :
    (stereoEncoder.Encode linuxAmd64 toyEngine [0, 0] 1 (-1)).calls = [] ∧
    (stereoEncoder.Encode linuxAmd64 toyEngine [0, 0] 1 (-1)).result
      = .panicked .makeLenOutOfRange ∧
    (stereoDecoder.Decode linuxAmd64 toyEngine [1] (-1)).calls = [] ∧
    (stereoDecoder.Decode linuxAmd64 toyEngine [1] (-1)).result
      = .panicked .makeLenOutOfRange ∧
    (stereoEncoder.Encode linuxAmd64 toyEngine [0, 0] 1 4611686018427387904).calls = [] ∧
    (stereoEncoder.Encode linuxAmd64 toyEngine [0, 0] 1 4611686018427387904).result
      = .panicked .makeLenOutOfRange ∧
    (monoDecoder.Decode linuxAmd64 toyEngine [1] 4611686018427387904).calls = [] ∧
    (monoDecoder.Decode linuxAmd64 toyEngine [1] 4611686018427387904).result
      = .panicked .makeLenOutOfRange :=
  ⟨by decide, by decide, by decide, by decide, by decide, by decide, by decide, by decide⟩

/-- C4 (amended): whenever the output buffer can be allocated (for `Encode`,
`maxDataBytes` bytes; for `Decode`, `frameSize * channels` samples of 2 bytes, the
product taken as a Go `int`; in both cases a non-negative length within the runtime's
allocation limit), `Encode` and `Decode` each call the engine exactly once; they return
an error if and only if that call reported this error, and then the returned data is
nil. -/
theorem engine_called_once_and_error_passed_on {E D Err : Type} (rt : GoRuntime)
    (eng : Engine E D Err)
    (e : OpusEncoder E) (d : OpusDecoder D) (pcm : List Sample) (data : List Byte)
    (mframeSize maxDataBytes frameSize : Int)
    (hE : rt.canMake 1 maxDataBytes)
    (hD : rt.canMake 2 (wrapInt (frameSize * d.channels))) :
    ((e.Encode rt eng pcm mframeSize maxDataBytes).calls
        = [.encode pcm (List.replicate maxDataBytes.toNat 0)] ∧
      (∀ err, (∃ st dat, (e.Encode rt eng pcm mframeSize maxDataBytes).result
          = .returned (st, ⟨dat, some err⟩)) ↔
        ∃ s, e.enc = some s ∧
          (eng.Encode s pcm (List.replicate maxDataBytes.toNat 0)).err = some err) ∧
      (∀ st dat err, (e.Encode rt eng pcm mframeSize maxDataBytes).result
          = .returned (st, ⟨dat, some err⟩) → dat = none)) ∧
    ((d.Decode rt eng data frameSize).calls
        = [.decode data (List.replicate (wrapInt (frameSize * d.channels)).toNat 0)] ∧
      (∀ err, (∃ st dat, (d.Decode rt eng data frameSize).result
          = .returned (st, ⟨dat, some err⟩)) ↔
        ∃ s, d.dec = some s ∧ (eng.Decode s data
          (List.replicate (wrapInt (frameSize * d.channels)).toNat 0)).err = some err) ∧
      (∀ st dat err, (d.Decode rt eng data frameSize).result
          = .returned (st, ⟨dat, some err⟩) → dat = none)) := by
  constructor
  · cases he : e.enc with
    | none =>
      rw [Encode_nil_handle rt eng e pcm mframeSize maxDataBytes hE he]
      simp
    | some s =>
      cases herr : (eng.Encode s pcm (List.replicate maxDataBytes.toNat 0)).err with
      | none =>
        rw [Encode_engine_ok rt eng e pcm mframeSize maxDataBytes hE s he herr]
        cases sliceTo (overwrite (List.replicate maxDataBytes.toNat 0)
            (eng.Encode s pcm (List.replicate maxDataBytes.toNat 0)).written)
          (wrapInt ((eng.Encode s pcm (List.replicate maxDataBytes.toNat 0)).n
            * e.channels)) <;> simp [Outcome.bind, herr]
      | some err1 =>
        rw [Encode_engine_error rt eng e pcm mframeSize maxDataBytes hE s err1 he herr]
        simp only [herr, Outcome.returned.injEq, Prod.mk.injEq, GoRet.mk.injEq,
          Option.some.injEq, true_and]
        refine ⟨?_, ?_⟩
        · intro err
          constructor
          · rintro ⟨st, dat, -, -, h⟩
            exact ⟨s, rfl, by rw [herr, h]⟩
          · rintro ⟨s1, rfl, h⟩
            rw [herr] at h
            exact ⟨_, _, rfl, rfl, Option.some.inj h⟩
        · intro st dat err h
          exact h.2.1.symm
  · cases hd : d.dec with
    | none =>
      rw [Decode_nil_handle rt eng d data frameSize hD hd]
      simp
    | some s =>
      cases herr : (eng.Decode s data
          (List.replicate (wrapInt (frameSize * d.channels)).toNat 0)).err with
      | none =>
        rw [Decode_engine_ok rt eng d data frameSize hD s hd herr]
        cases sliceTo (overwrite (List.replicate (wrapInt (frameSize * d.channels)).toNat 0)
            (eng.Decode s data
              (List.replicate (wrapInt (frameSize * d.channels)).toNat 0)).written)
          (wrapInt (d.channels * (eng.Decode s data
            (List.replicate (wrapInt (frameSize * d.channels)).toNat 0)).n))
          <;> simp [Outcome.bind, herr]
      | some err1 =>
        rw [Decode_engine_error rt eng d data frameSize hD s err1 hd herr]
        simp only [herr, Outcome.returned.injEq, Prod.mk.injEq, GoRet.mk.injEq,
          Option.some.injEq, true_and]
        refine ⟨?_, ?_⟩
        · intro err
          constructor
          · rintro ⟨st, dat, -, -, h⟩
            exact ⟨s, rfl, by rw [herr, h]⟩
          · rintro ⟨s1, rfl, h⟩
            rw [herr] at h
            exact ⟨_, _, rfl, rfl, Option.some.inj h⟩
        · intro st dat err h
          exact h.2.1.symm

theorem engine_called_once_and_error_passed_on_witness :
    linuxAmd64.canMake 1 4 ∧ linuxAmd64.canMake 2 (wrapInt (1 * stereoDecoder.channels)) ∧
    ((stereoEncoder.Encode linuxAmd64 toyEngine [0] 1 4).calls
        = [.encode [0] (List.replicate (4 : Int).toNat 0)] ∧
      (∀ err, (∃ st dat, (stereoEncoder.Encode linuxAmd64 toyEngine [0] 1 4).result
          = .returned (st, ⟨dat, some err⟩)) ↔
        ∃ s, stereoEncoder.enc = some s ∧
          (toyEngine.Encode s [0] (List.replicate (4 : Int).toNat 0)).err = some err) ∧
      (∀ st dat err, (stereoEncoder.Encode linuxAmd64 toyEngine [0] 1 4).result
          = .returned (st, ⟨dat, some err⟩) → dat = none)) ∧
    ((stereoDecoder.Decode linuxAmd64 toyEngine [] 1).calls
        = [.decode [] (List.replicate (wrapInt (1 * stereoDecoder.channels)).toNat 0)] ∧
      (∀ err, (∃ st dat, (stereoDecoder.Decode linuxAmd64 toyEngine [] 1).result
          = .returned (st, ⟨dat, some err⟩)) ↔
        ∃ s, stereoDecoder.dec = some s ∧ (toyEngine.Decode s []
          (List.replicate (wrapInt (1 * stereoDecoder.channels)).toNat 0)).err = some err) ∧
      (∀ st dat err, (stereoDecoder.Decode linuxAmd64 toyEngine [] 1).result
          = .returned (st, ⟨dat, some err⟩) → dat = none)) :=
  ⟨by decide, by decide,
    engine_called_once_and_error_passed_on linuxAmd64 toyEngine stereoEncoder stereoDecoder [0] [] 1 4 1
      (by decide) (by decide)⟩

/-! ## Decoding -/

/-- C3 (counterexample): a two-channel decoder and the frame size `2 ^ 62`, which is
non-negative: the buffer size `frameSize * channels` wraps around to a negative `int`,
the allocation panics, the engine is handed no buffer and nothing is returned.  With the
frame size `2 ^ 61` the product `2 ^ 62` fits an `int` but is beyond the allocation limit
of linux/amd64, and the run ends the same way. -/
theorem Decode_frame_size_overflow :
    (0 : Int) ≤ 4611686018427387904 ∧
    stereoDecoder.channels = 2 ∧
    wrapInt (4611686018427387904 * stereoDecoder.channels) = -9223372036854775808 ∧
    (stereoDecoder.Decode linuxAmd64 toyEngine [1] 4611686018427387904).calls = [] ∧
    (stereoDecoder.Decode linuxAmd64 toyEngine [1] 4611686018427387904).result
      = .panicked .makeLenOutOfRange ∧
    (0 : Int) ≤ 2305843009213693952 ∧
    wrapInt (2305843009213693952 * stereoDecoder.channels) = 4611686018427387904 ∧
    (stereoDecoder.Decode linuxAmd64 toyEngine [1] 2305843009213693952).calls = [] ∧
    (stereoDecoder.Decode linuxAmd64 toyEngine [1] 2305843009213693952).result
      = .panicked .makeLenOutOfRange :=
  ⟨by decide, by decide, by decide, by decide, by decide, by decide, by decide, by decide,
    by decide⟩

/-- C3 (amended): for a decoder with channel count `c ≥ 0` and a frame size
`frameSize ≥ 0` such that `frameSize * c` fits a Go `int` and a buffer of `frameSize * c`
samples (2 bytes each) is within the runtime's allocation limit, `Decode` hands the
engine a zeroed output buffer of exactly `frameSize * c` samples, and if the engine's
decode succeeds reporting `r` samples per channel with `0 ≤ r ≤ frameSize`, `Decode`
returns no error and exactly the first `c * r` samples of that buffer, the slice being in
range. -/
theorem Decode_returns_decoded_samples {E D Err : Type} (rt : GoRuntime)
    (eng : Engine E D Err) (d : OpusDecoder D) (data : List Byte) (frameSize : Int)
    (hc : 0 ≤ d.channels) (hf : 0 ≤ frameSize) (hfit : frameSize * d.channels < 2 ^ 63)
    (halloc : (frameSize * d.channels).toNat * 2 ≤ rt.maxAlloc) :
    ((List.replicate (frameSize * d.channels).toNat (0 : Sample)).length : Int)
      = frameSize * d.channels ∧
    (d.Decode rt eng data frameSize).calls
      = [.decode data (List.replicate (frameSize * d.channels).toNat 0)] ∧
    ∀ s, d.dec = some s →
      (eng.Decode s data (List.replicate (frameSize * d.channels).toNat 0)).err = none →
      0 ≤ (eng.Decode s data (List.replicate (frameSize * d.channels).toNat 0)).n →
      (eng.Decode s data (List.replicate (frameSize * d.channels).toNat 0)).n ≤ frameSize →
      ∃ out, (d.Decode rt eng data frameSize).result = .returned
          (⟨some (eng.Decode s data
              (List.replicate (frameSize * d.channels).toNat 0)).state, d.channels⟩,
            ⟨some out, none⟩) ∧
        out = (overwrite (List.replicate (frameSize * d.channels).toNat 0)
          (eng.Decode s data (List.replicate (frameSize * d.channels).toNat 0)).written).take
          (d.channels *
            (eng.Decode s data (List.replicate (frameSize * d.channels).toNat 0)).n).toNat ∧
        (out.length : Int) = d.channels *
          (eng.Decode s data (List.replicate (frameSize * d.channels).toNat 0)).n := by
  have hprod : 0 ≤ frameSize * d.channels := mul_nonneg hf hc
  have hw : wrapInt (frameSize * d.channels) = frameSize * d.channels :=
    wrapInt_of_range hprod hfit
  have hD : rt.canMake 2 (wrapInt (frameSize * d.channels)) := by
    rw [hw]; exact ⟨hprod, halloc⟩
  have hlen : ((List.replicate (frameSize * d.channels).toNat (0 : Sample)).length : Int)
      = frameSize * d.channels := by
    rw [List.length_replicate]
    exact Int.toNat_of_nonneg hprod
  refine ⟨hlen, ?_, ?_⟩
  · cases hd : d.dec with
    | none => rw [Decode_nil_handle rt eng d data frameSize hD hd, hw]
    | some s =>
      cases herr : (eng.Decode s data
          (List.replicate (wrapInt (frameSize * d.channels)).toNat 0)).err with
      | none => rw [Decode_engine_ok rt eng d data frameSize hD s hd herr, hw]
      | some err => rw [Decode_engine_error rt eng d data frameSize hD s err hd herr, hw]
  · intro s hd herr hn0 hn1
    have hcn0 : 0 ≤ d.channels *
        (eng.Decode s data (List.replicate (frameSize * d.channels).toNat 0)).n :=
      mul_nonneg hc hn0
    have hcn1 : d.channels *
        (eng.Decode s data (List.replicate (frameSize * d.channels).toNat 0)).n
        ≤ frameSize * d.channels :=
      (mul_le_mul_of_nonneg_left hn1 hc).trans (le_of_eq (mul_comm _ _))
    have hwn : wrapInt (d.channels *
        (eng.Decode s data (List.replicate (frameSize * d.channels).toNat 0)).n)
        = d.channels *
          (eng.Decode s data (List.replicate (frameSize * d.channels).toNat 0)).n :=
      wrapInt_of_range hcn0 (lt_of_le_of_lt hcn1 hfit)
    have hlen2 : ((overwrite (List.replicate (frameSize * d.channels).toNat (0 : Sample))
        (eng.Decode s data
          (List.replicate (frameSize * d.channels).toNat 0)).written).length : Int)
        = frameSize * d.channels := by
      rw [length_overwrite]
      exact hlen
    refine ⟨_, ?_, rfl, ?_⟩
    · rw [Decode_engine_ok rt eng d data frameSize hD s hd (by rw [hw]; exact herr), hw, hwn,
        sliceTo_of_range _ hcn0 (by rw [hlen2]; exact hcn1)]
      rfl
    · rw [List.length_take]
      have := Int.toNat_of_nonneg hcn0
      omega

theorem Decode_returns_decoded_samples_witness :
    0 ≤ stereoDecoder.channels ∧ (0 : Int) ≤ 4 ∧ 4 * stereoDecoder.channels < 2 ^ 63 ∧
    (4 * stereoDecoder.channels).toNat * 2 ≤ linuxAmd64.maxAlloc ∧
    (stereoDecoder.Decode linuxAmd64 toyEngine [3] 4).calls = [.decode [3] [0, 0, 0, 0, 0, 0, 0, 0]] ∧
    (stereoDecoder.Decode linuxAmd64 toyEngine [3] 4).result
      = .returned (stereoDecoder, ⟨some [0, 0, 0, 0, 0, 0], none⟩) := by
  have h := Decode_returns_decoded_samples linuxAmd64 toyEngine stereoDecoder [3] 4
    (by decide) (by decide) (by decide) (by decide)
  obtain ⟨out, hres, hout, -⟩ := h.2.2 { rate := 48000, channels := 2 } rfl
    (by decide) (by decide) (by decide)
  refine ⟨by decide, by decide, by decide, by decide, h.2.1, ?_⟩
  rw [hres, hout]
  decide

/-! ## Engine construction failure -/

/-- C6 (counterexample): the engine's decoder constructor fails, returning a nil handle
and an error; `NewDecoder` returns a decoder with the nil handle and the host's channel
count, and no error. -/
theorem NewDecoder_keeps_nil_handle :
    toyEngine.NewDecoder brokenHost.AudioSampleRate brokenHost.AudioChannels
      = (none, some .badArg) ∧
    voiceCodec.NewDecoder toyEngine brokenHost = { dec := none, channels := 1 } :=
  ⟨by decide, by decide⟩

/-- C6 (amended): `NewEncoder` and `NewDecoder` discard the error of the engine's
constructor.  Whatever handle `hd` and error the decoder constructor returns,
`NewDecoder` returns a decoder holding `hd` (nil included) with the host's channel count.
Whatever error the encoder constructor returns, `NewEncoder` returns an encoder, holding
the handle configured by the three setters, when the handle is live; when it is nil,
`NewEncoder` does not return: the first setter call goes through the nil handle. -/
theorem constructors_discard_engine_error {E D Err : Type} (eng : Engine E D Err)
    (host : Host) (c : OpusCodec) (hd : Option D) (he : Option E) (errd erre : Option Err)
    (hdec : eng.NewDecoder host.AudioSampleRate host.AudioChannels = (hd, errd))
    (henc : eng.NewEncoder host.AudioSampleRate host.AudioChannels c.application
      = (he, erre)) :
    c.NewDecoder eng host = { dec := hd, channels := host.AudioChannels } ∧
    (he = none → c.NewEncoder eng host = .panicked .nilDereference) ∧
    (∀ e0, he = some e0 → c.NewEncoder eng host = .returned
      { enc := some (eng.SetPacketLossPerc
          (eng.SetInBandFEC (eng.SetBitrateToMax e0).1 c.fec).1 c.packetLoss).1,
        application := c.application, channels := host.AudioChannels }) ∧
    (∀ e1, c.NewEncoder eng host = .returned e1 → e1.enc ≠ none) := by
  refine ⟨?_, ?_, ?_, ?_⟩
  · simp only [OpusCodec.NewDecoder, hdec]
  · intro h
    subst h
    simp only [OpusCodec.NewEncoder, henc]
  · intro e0 h
    subst h
    simp only [OpusCodec.NewEncoder, henc]
  · intro e1 h
    cases he with
    | none => simp [OpusCodec.NewEncoder, henc] at h
    | some e0 =>
      simp only [OpusCodec.NewEncoder, henc, Outcome.returned.injEq] at h
      subst h
      simp

theorem constructors_discard_engine_error_witness :
    toyEngine.NewDecoder brokenHost.AudioSampleRate brokenHost.AudioChannels
      = (none, some .badArg) ∧
    toyEngine.NewEncoder brokenHost.AudioSampleRate brokenHost.AudioChannels
      voiceCodec.application = (none, some .badArg) ∧
    voiceCodec.NewDecoder toyEngine brokenHost
      = { dec := none, channels := brokenHost.AudioChannels } ∧
    voiceCodec.NewEncoder toyEngine brokenHost = .panicked .nilDereference :=
  have h := constructors_discard_engine_error toyEngine brokenHost voiceCodec none none
    (some .badArg) (some .badArg) (by decide) (by decide)
  ⟨by decide, by decide, h.1, h.2.1 rfl⟩

end opusCodec
